import Mathlib

/-!
Shallow embedding of nutsdb's transactional list command protocol (tx_list.go)
and proofs about its validation, encoding and expiration behaviour.

Transcribed from the source: the `Tx.*` operations below mirror tx_list.go
line by line.  External collaborators of that file (the durable-append
primitive `tx.put`, the ds/list structure, the marshaling and pattern-match
utilities) are not part of the source slice; they are modelled from the
specification, each with a doc comment saying so.

Byte strings are modelled as `String`, Go `int` as `Int`, Go maps as
association lists.  A Go nil-pointer dereference is modelled by the `crash`
outcome.
-/

/-- Go error values surfaced by the list transaction layer.  `putFail` stands
for a failure of the external durable-append primitive, passed through
unchanged; `external` for other collaborator errors. -/
inductive GoErr where
  | ErrTxClosed
  | ErrBucket
  | ErrKeyNotFound
  | ErrSeparatorForListKey
  | ErrCount
  | ErrIndexOutOfRange
  | putFail
  | external : String → GoErr
deriving DecidableEq

/-- The validation-error class named by the spec's error taxonomy:
TransactionClosed, BucketNotFound, KeyNotFound, SeparatorViolation,
CountOutOfRange, IndexOutOfRange. -/
def GoErr.isValidation : GoErr → Bool
  | .ErrTxClosed => true
  | .ErrBucket => true
  | .ErrKeyNotFound => true
  | .ErrSeparatorForListKey => true
  | .ErrCount => true
  | .ErrIndexOutOfRange => true
  | _ => false

/-- Mutation-kind flags carried by command records (the Data*CmdFlag constants of
the source). -/
inductive CmdFlag where
  | DataRPushFlag
  | DataLPushFlag
  | DataRPopFlag
  | DataLPopFlag
  | DataLRemFlag
  | DataLSetFlag
  | DataLTrimFlag
  | DataLRemByIndex
  | DataExpireListFlag
  | DataDeleteFlag
deriving DecidableEq

/-- The data-structure tag every list command record carries. -/
def DataStructureList : Nat := 2

/-- The persistent TTL class used for every list command record. -/
def Persistent : Nat := 0

/-- SeparatorForListKey represents the reserved separator for list keys. -/
def SeparatorForListKey : String := "|"

/-- strings.Contains(key, SeparatorForListKey): the separator is the single
character of `SeparatorForListKey`. -/
def containsSeparator (s : String) : Bool := s.data.contains '|'

/-- A durable command record handed to the external append-only log, as built
by tx.put: bucket, key bytes, value bytes, ttl class, mutation flag, unix
timestamp and the data-structure tag. -/
structure Record where
  bucket : String
  key : String
  value : String
  ttl : Nat
  flag : CmdFlag
  timestamp : Nat
  ds : Nat
deriving DecidableEq

/-- The record produced by one push of one value. -/
def mkRecord (bucket key value : String) (flag : CmdFlag) (timestamp : Nat) : Record :=
  ⟨bucket, key, value, Persistent, flag, timestamp, DataStructureList⟩

/-- Association-list lookup, modelling Go map reads. -/
def alookup {α : Type} : List (String × α) → String → Option α
  | [], _ => none
  | (k, v) :: rest, key => if k = key then some v else alookup rest key

/-- Association-list write, modelling Go map assignment (update or insert). -/
def aset {α : Type} : List (String × α) → String → α → List (String × α)
  | [], key, v => [(key, v)]
  | (k, w) :: rest, key, v =>
    if k = key then (key, v) :: rest else (k, w) :: aset rest key v

/-- Association-list delete, modelling Go map delete. -/
def aerase {α : Type} : List (String × α) → String → List (String × α)
  | [], _ => []
  | (k, w) :: rest, key =>
    if k = key then aerase rest key else (k, w) :: aerase rest key

/-- The per-bucket list structure held by the index registry (ds/list.List):
per-key element lists, TTL seconds and set-at timestamps. -/
structure ListStruct where
  Items : List (String × List String)
  TTL : List (String × Nat)
  TimeStamp : List (String × Nat)
deriving DecidableEq

/-- Removal of a key from all three tables of the structure. -/
def ListStruct.evict (l : ListStruct) (key : String) : ListStruct :=
  { Items := aerase l.Items key
    TTL := aerase l.TTL key
    TimeStamp := aerase l.TimeStamp key }

/-- Modelled from the spec: the external structure's expiration predicate
(ds/list IsExpire, not under src/).  A key is expired when
now − setAtTimestamp > ttlSeconds; absence of a TTL entry or ttl = 0 means
persistent.  The gate's eviction takes effect in the shared structure
synchronously, so the verdict comes with the possibly-evicted structure. -/
def ListStruct.IsExpire (l : ListStruct) (key : String) (now : Nat) : Bool × ListStruct :=
  match alookup l.TTL key with
  | none => (false, l)
  | some ttl =>
    if ttl = 0 then (false, l)
    else
      let ts := (alookup l.TimeStamp key).getD 0
      if ts + ttl < now then (true, l.evict key) else (false, l)

/-- Modelled from the spec: the external structure's tail read (ds/list RPeek):
the last element of the key's list, or KeyNotFound. -/
def ListStruct.RPeekItem (l : ListStruct) (key : String) : Except GoErr String :=
  match alookup l.Items key with
  | none => .error GoErr.ErrKeyNotFound
  | some xs =>
    match xs.getLast? with
    | some v => .ok v
    | none => .error GoErr.ErrKeyNotFound

/-- Modelled from the spec: the external structure's head read (ds/list LPeek):
the first element of the key's list, or KeyNotFound. -/
def ListStruct.LPeekItem (l : ListStruct) (key : String) : Except GoErr String :=
  match alookup l.Items key with
  | none => .error GoErr.ErrKeyNotFound
  | some xs =>
    match xs.head? with
    | some v => .ok v
    | none => .error GoErr.ErrKeyNotFound

/-- Modelled from the spec: the external structure's size read (ds/list Size):
the element count of the key's list, or KeyNotFound for an absent key. -/
def ListStruct.size (l : ListStruct) (key : String) : Except GoErr Int :=
  match alookup l.Items key with
  | none => .error GoErr.ErrKeyNotFound
  | some xs => .ok (xs.length : Int)

/-- Modelled from the spec: RangeArithmetic and the external structure's range
read (ds/list LRange): negative offsets count from the end (-1 is the last
element); out-of-range bounds are rejected with an external range error. -/
def ListStruct.LRange (l : ListStruct) (key : String) (start stop : Int) : Except GoErr (List String) :=
  match alookup l.Items key with
  | none => .error GoErr.ErrKeyNotFound
  | some xs =>
    let size : Int := xs.length
    let s := if start < 0 then size + start else start
    let e := if stop < 0 then size + stop else stop
    if 0 ≤ s ∧ s ≤ e ∧ e < size then .ok ((xs.drop s.toNat).take (e - s + 1).toNat)
    else .error (GoErr.external "ErrStartOrEnd")

/-- Removal of up to `n` occurrences of `v`, scanning left to right; returns
the removed count and the remaining elements. -/
def removeFirstN : List String → String → Nat → Nat × List String
  | [], _, _ => (0, [])
  | x :: xs, v, n =>
    if n = 0 then (0, x :: xs)
    else if x = v then
      let (r, ys) := removeFirstN xs v (n - 1)
      (r + 1, ys)
    else
      let (r, ys) := removeFirstN xs v n
      (r, x :: ys)

/-- Modelled from the spec: RemoveByCount semantics of the external structure:
count > 0 removes the first count occurrences head-to-tail, count < 0 the
first |count| occurrences tail-to-head, count = 0 all occurrences. -/
def listRemove (xs : List String) (count : Int) (value : String) : Nat × List String :=
  if 0 < count then removeFirstN xs value count.toNat
  else if count < 0 then
    let (r, ys) := removeFirstN xs.reverse value (-count).toNat
    (r, ys.reverse)
  else removeFirstN xs value xs.length

/-- Modelled from the spec: ds/list LRemNum performs the actual removal
immediately (synchronously) and returns the removed count in the same call. -/
def ListStruct.LRemNum (l : ListStruct) (key : String) (count : Int) (value : String) :
    Except GoErr (Int × ListStruct) :=
  match alookup l.Items key with
  | none => .error GoErr.ErrKeyNotFound
  | some xs =>
    let p := listRemove xs count value
    .ok ((p.1 : Int), { l with Items := aset l.Items key p.2 })

/-- The number of requested indices that are currently valid/removable:
distinct in-bounds positions. -/
def precheckCount (size : Nat) (idxs : List Int) : Nat :=
  ((idxs.filter (fun i => decide (0 ≤ i) && decide (i < (size : Int)))).dedup).length

/-- Modelled from the spec: the external structure's non-mutating precheck for
index-set removal (ds/list LRemByIndexPreCheck): how many of the requested
indices are currently valid/removable, without mutating anything. -/
def ListStruct.LRemByIndexPreCheck (l : ListStruct) (key : String) (idxs : List Int) :
    Except GoErr Int :=
  match alookup l.Items key with
  | none => .error GoErr.ErrKeyNotFound
  | some xs => .ok ((precheckCount xs.length idxs : Nat) : Int)

/-- Modelled from the spec: the external structure's TTL read (ds/list
GetListTTL): the stored ttl value, or KeyNotFound. -/
def ListStruct.getTTL (l : ListStruct) (key : String) : Except GoErr Nat :=
  match alookup l.TTL key with
  | none => .error GoErr.ErrKeyNotFound
  | some t => .ok t

/-- strconv2.IntToStr, an external utility: decimal rendering of an integer. -/
def IntToStr (i : Int) : String := toString i

/-- Modelled from the spec: MarshalInts, the canonical byte encoding of an
index list (external utility, not under src/). -/
def MarshalInts (xs : List Int) : String :=
  String.intercalate "," (xs.map IntToStr)

/-- Modelled from the spec: the external key-pattern matcher (filepath.Match).
Pattern semantics are out of the spec's scope; minimally modelled: "*" matches
every key, "[" is a malformed pattern (match error), any other pattern matches
exactly itself. -/
def patternMatch (pattern key : String) : Except GoErr Bool :=
  if pattern = "*" then .ok true
  else if pattern = "[" then .error (GoErr.external "ErrBadPattern")
  else .ok (decide (pattern = key))

/-- MatchForRange(pattern, key, f), an external helper: returns (end, err);
end is true on a match error or when the key matches and the callback signals
termination by returning false. -/
def MatchForRange (pattern key : String) (f : String → Bool) : Bool × Option GoErr :=
  match patternMatch pattern key with
  | .error e => (true, some e)
  | .ok true => if f key then (false, none) else (true, none)
  | .ok false => (false, none)

/-- Transaction state visible to the list protocol: the closed flag, the
per-bucket registry (db.Index), the ordered command-record log, a failure
oracle for the external durable-append primitive, the count of append
attempts so far, and the clock. -/
structure Tx where
  closed : Bool
  index : List (String × ListStruct)
  log : List Record
  putErr : Nat → Bool
  nputs : Nat
  now : Nat

/-- Outcome of an operation: a value with the updated transaction, a Go error
with the transaction state at the point of failure, or a crash (Go nil-pointer
dereference). -/
inductive Res (α : Type) where
  | ok : α → Tx → Res α
  | err : GoErr → Tx → Res α
  | crash : Res α

/-- The error of a failed outcome, if any. -/
def Res.errOf {α : Type} : Res α → Option GoErr
  | .err e _ => some e
  | _ => none

/-- The returned value of a successful outcome, if any. -/
def Res.val {α : Type} : Res α → Option α
  | .ok a _ => some a
  | _ => none

/-- The command log after the operation (none when it crashed). -/
def Res.log {α : Type} : Res α → Option (List Record)
  | .ok _ tx => some tx.log
  | .err _ tx => some tx.log
  | .crash => none

/-- The registry after the operation (none when it crashed). -/
def Res.idx {α : Type} : Res α → Option (List (String × ListStruct))
  | .ok _ tx => some tx.index
  | .err _ tx => some tx.index
  | .crash => none

/-- Whether the operation crashed. -/
def Res.isCrash {α : Type} : Res α → Bool
  | .crash => true
  | _ => false

/-- tx.checkTxIsClosed. -/
def Tx.checkTxIsClosed (tx : Tx) : Option GoErr :=
  if tx.closed then some GoErr.ErrTxClosed else none

/-- tx.db.Index.getList(bucket): the registry lookup; none models a Go nil
pointer. -/
def Tx.getList (tx : Tx) (bucket : String) : Option ListStruct :=
  alookup tx.index bucket

/-- Write-back of the shared per-bucket structure: mutations done through the
registry pointer in Go become an explicit registry update here. -/
def Tx.setList (tx : Tx) (bucket : String) (l : ListStruct) : Tx :=
  { tx with index := aset tx.index bucket l }

/-- Modelled from the spec: tx.put, the single generic durable-append
primitive (not under src/): append(bucket, key, value, persistenceClass,
mutationKind, timestamp, dataStructureTag) → Result, with an explicit oracle
for external append failures. -/
def Tx.put (tx : Tx) (bucket key value : String) (ttl : Nat) (flag : CmdFlag) (timestamp : Nat) :
    Res Unit :=
  if tx.putErr tx.nputs then .err GoErr.putFail { tx with nputs := tx.nputs + 1 }
  else
    .ok () { tx with
      log := tx.log ++ [⟨bucket, key, value, ttl, flag, timestamp, DataStructureList⟩]
      nputs := tx.nputs + 1 }

/-- tx.push: one tx.put per value, in input order, stopping at the first
failure. -/
def Tx.push : Tx → String → String → CmdFlag → List String → Res Unit
  | tx, _, _, _, [] => .ok () tx
  | tx, bucket, key, flag, value :: rest =>
    match tx.put bucket key value Persistent flag tx.now with
    | .ok _ tx' => Tx.push tx' bucket key flag rest
    | .err e tx' => .err e tx'
    | .crash => .crash

/-- tx.CheckExpire: asks IsExpire on the registry lookup result without a nil
guard (none therefore crashes), and on expiry invokes the push helper with the
Delete flag and no values, discarding its error. -/
def Tx.CheckExpire (tx : Tx) (bucket key : String) : Option (Bool × Tx) :=
  match tx.getList bucket with
  | none => none
  | some l =>
    let p := l.IsExpire key tx.now
    let tx' := tx.setList bucket p.2
    if p.1 then
      match tx'.push bucket key CmdFlag.DataDeleteFlag [] with
      | .ok _ tx2 => some (true, tx2)
      | .err _ tx2 => some (true, tx2)
      | .crash => none
    else some (false, tx')

/-- tx.RPeek. -/
def Tx.RPeek (tx : Tx) (bucket key : String) : Res String :=
  match tx.checkTxIsClosed with
  | some e => .err e tx
  | none =>
    match tx.getList bucket with
    | none => .err GoErr.ErrBucket tx
    | some _ =>
      match tx.CheckExpire bucket key with
      | none => .crash
      | some (true, tx') => .err GoErr.ErrKeyNotFound tx'
      | some (false, tx') =>
        match tx'.getList bucket with
        | none => .err GoErr.ErrBucket tx'
        | some l =>
          match l.RPeekItem key with
          | .ok item => .ok item tx'
          | .error e => .err e tx'

/-- tx.LPeek. -/
def Tx.LPeek (tx : Tx) (bucket key : String) : Res String :=
  match tx.checkTxIsClosed with
  | some e => .err e tx
  | none =>
    match tx.getList bucket with
    | none => .err GoErr.ErrBucket tx
    | some _ =>
      match tx.CheckExpire bucket key with
      | none => .crash
      | some (true, tx') => .err GoErr.ErrKeyNotFound tx'
      | some (false, tx') =>
        match tx'.getList bucket with
        | none => .err GoErr.ErrBucket tx'
        | some l =>
          match l.LPeekItem key with
          | .ok item => .ok item tx'
          | .error e => .err e tx'

/-- tx.RPop: RPeek then one pushed record carrying the element.  Go returns
the pair (item, err); the error-first convention is kept, dropping the item
when the record append fails. -/
def Tx.RPop (tx : Tx) (bucket key : String) : Res String :=
  match tx.RPeek bucket key with
  | .crash => .crash
  | .err e tx' => .err e tx'
  | .ok item tx' =>
    match tx'.push bucket key CmdFlag.DataRPopFlag [item] with
    | .crash => .crash
    | .err e tx2 => .err e tx2
    | .ok _ tx2 => .ok item tx2

/-- tx.LPop: LPeek then one pushed record carrying the element. -/
def Tx.LPop (tx : Tx) (bucket key : String) : Res String :=
  match tx.LPeek bucket key with
  | .crash => .crash
  | .err e tx' => .err e tx'
  | .ok item tx' =>
    match tx'.push bucket key CmdFlag.DataLPopFlag [item] with
    | .crash => .crash
    | .err e tx2 => .err e tx2
    | .ok _ tx2 => .ok item tx2

/-- tx.RPush: closed check, expiration check (before any bucket nil check),
separator check, then push. -/
def Tx.RPush (tx : Tx) (bucket key : String) (values : List String) : Res Unit :=
  match tx.checkTxIsClosed with
  | some e => .err e tx
  | none =>
    match tx.CheckExpire bucket key with
    | none => .crash
    | some (true, tx') => .err GoErr.ErrKeyNotFound tx'
    | some (false, tx') =>
      if containsSeparator key then .err GoErr.ErrSeparatorForListKey tx'
      else tx'.push bucket key CmdFlag.DataRPushFlag values

/-- tx.LPush: closed check, expiration check (before any bucket nil check),
separator check, then push. -/
def Tx.LPush (tx : Tx) (bucket key : String) (values : List String) : Res Unit :=
  match tx.checkTxIsClosed with
  | some e => .err e tx
  | none =>
    match tx.CheckExpire bucket key with
    | none => .crash
    | some (true, tx') => .err GoErr.ErrKeyNotFound tx'
    | some (false, tx') =>
      if containsSeparator key then .err GoErr.ErrSeparatorForListKey tx'
      else tx'.push bucket key CmdFlag.DataLPushFlag values

/-- tx.LSize. -/
def Tx.LSize (tx : Tx) (bucket key : String) : Res Int :=
  match tx.checkTxIsClosed with
  | some e => .err e tx
  | none =>
    match tx.getList bucket with
    | none => .err GoErr.ErrBucket tx
    | some _ =>
      match tx.CheckExpire bucket key with
      | none => .crash
      | some (true, tx') => .err GoErr.ErrKeyNotFound tx'
      | some (false, tx') =>
        match tx'.getList bucket with
        | none => .err GoErr.ErrBucket tx'
        | some l =>
          match l.size key with
          | .ok n => .ok n tx'
          | .error e => .err e tx'

/-- tx.LRange. -/
def Tx.LRange (tx : Tx) (bucket key : String) (start stop : Int) : Res (List String) :=
  match tx.checkTxIsClosed with
  | some e => .err e tx
  | none =>
    match tx.getList bucket with
    | none => .err GoErr.ErrBucket tx
    | some _ =>
      match tx.CheckExpire bucket key with
      | none => .crash
      | some (true, tx') => .err GoErr.ErrKeyNotFound tx'
      | some (false, tx') =>
        match tx'.getList bucket with
        | none => .err GoErr.ErrBucket tx'
        | some l =>
          match l.LRange key start stop with
          | .ok xs => .ok xs tx'
          | .error e => .err e tx'

/-- tx.LRem: size via LSize, count bounds check, one record with the composite
"<count>|<value>" payload under the unchanged key, then the synchronous
removal through the external structure. -/
def Tx.LRem (tx : Tx) (bucket key : String) (count : Int) (value : String) : Res Int :=
  match tx.LSize bucket key with
  | .crash => .crash
  | .err e tx1 => .err e tx1
  | .ok size tx1 =>
    if count > size ∨ count < -size then .err GoErr.ErrCount tx1
    else
      match tx1.push bucket key CmdFlag.DataLRemFlag
          [IntToStr count ++ SeparatorForListKey ++ value] with
      | .crash => .crash
      | .err e tx2 => .err e tx2
      | .ok _ tx2 =>
        match tx2.getList bucket with
        | none => .err GoErr.ErrBucket tx2
        | some l =>
          match l.LRemNum key count value with
          | .error e => .err e tx2
          | .ok p => .ok p.1 (tx2.setList bucket p.2)

/-- tx.LSet: checks, size via LSize with its error discarded, index bounds,
then one record under the composite key "<key>|<index>". -/
def Tx.LSet (tx : Tx) (bucket key : String) (index : Int) (value : String) : Res Unit :=
  match tx.checkTxIsClosed with
  | some e => .err e tx
  | none =>
    match tx.getList bucket with
    | none => .err GoErr.ErrBucket tx
    | some _ =>
      match tx.CheckExpire bucket key with
      | none => .crash
      | some (true, tx') => .err GoErr.ErrKeyNotFound tx'
      | some (false, tx') =>
        match tx'.getList bucket with
        | none => .err GoErr.ErrBucket tx'
        | some l =>
          if (alookup l.Items key).isNone then .err GoErr.ErrKeyNotFound tx'
          else
            match tx'.LSize bucket key with
            | .crash => .crash
            | .err _ tx2 =>
              -- Go discards the LSize error and keeps its zero return value,
              -- so the bounds check below runs with size = 0.
              if index < 0 ∨ index ≥ 0 then .err GoErr.ErrIndexOutOfRange tx2
              else
                tx2.push bucket (key ++ SeparatorForListKey ++ IntToStr index)
                  CmdFlag.DataLSetFlag [value]
            | .ok size tx2 =>
              if index < 0 ∨ index ≥ size then .err GoErr.ErrIndexOutOfRange tx2
              else
                tx2.push bucket (key ++ SeparatorForListKey ++ IntToStr index)
                  CmdFlag.DataLSetFlag [value]

/-- tx.LTrim: checks, key-existence check, the LRange resolution path purely
as a precondition check, then one record with composite key "<key>|<start>"
and value "<end>". -/
def Tx.LTrim (tx : Tx) (bucket key : String) (start stop : Int) : Res Unit :=
  match tx.checkTxIsClosed with
  | some e => .err e tx
  | none =>
    match tx.getList bucket with
    | none => .err GoErr.ErrBucket tx
    | some _ =>
      match tx.CheckExpire bucket key with
      | none => .crash
      | some (true, tx') => .err GoErr.ErrKeyNotFound tx'
      | some (false, tx') =>
        match tx'.getList bucket with
        | none => .err GoErr.ErrBucket tx'
        | some l =>
          if (alookup l.Items key).isNone then .err GoErr.ErrKeyNotFound tx'
          else
            match tx'.LRange bucket key start stop with
            | .crash => .crash
            | .err e tx2 => .err e tx2
            | .ok _ tx2 =>
              tx2.push bucket (key ++ SeparatorForListKey ++ IntToStr start)
                CmdFlag.DataLTrimFlag [IntToStr stop]

/-- tx.LRemByIndex: checks, ascending sort, non-mutating precheck, then (when
the precheck count is nonzero) the marshaled sorted indices as one record
under the unchanged key. -/
def Tx.LRemByIndex (tx : Tx) (bucket key : String) (indexes : List Int) : Res Int :=
  match tx.checkTxIsClosed with
  | some e => .err e tx
  | none =>
    match tx.getList bucket with
    | none => .err GoErr.ErrBucket tx
    | some _ =>
      match tx.CheckExpire bucket key with
      | none => .crash
      | some (true, tx') => .err GoErr.ErrKeyNotFound tx'
      | some (false, tx') =>
        match tx'.getList bucket with
        | none => .err GoErr.ErrBucket tx'
        | some l =>
          match l.LRemByIndexPreCheck key (List.insertionSort (fun a b : Int => a ≤ b) indexes) with
          | .error e => .err e tx'
          | .ok removedNum =>
            if removedNum = 0 then .ok 0 tx'
            else
              match tx'.push bucket key CmdFlag.DataLRemByIndex
                  [MarshalInts (List.insertionSort (fun a b : Int => a ≤ b) indexes)] with
              | .crash => .crash
              | .err e tx2 => .err e tx2
              | .ok _ tx2 => .ok removedNum tx2

/-- The loop body of tx.LKeys over a snapshot of the bucket's keys. -/
def Tx.lkeysAux : Tx → String → String → (String → Bool) → List String → Res Unit
  | tx, _, _, _, [] => .ok () tx
  | tx, bucket, pattern, f, key :: rest =>
    match tx.CheckExpire bucket key with
    | none => .crash
    | some (true, tx') => Tx.lkeysAux tx' bucket pattern f rest
    | some (false, tx') =>
      if (MatchForRange pattern key f).1 || (MatchForRange pattern key f).2.isSome then
        match (MatchForRange pattern key f).2 with
        | some e => .err e tx'
        | none => .ok () tx'
      else Tx.lkeysAux tx' bucket pattern f rest

/-- tx.LKeys. -/
def Tx.LKeys (tx : Tx) (bucket pattern : String) (f : String → Bool) : Res Unit :=
  match tx.checkTxIsClosed with
  | some e => .err e tx
  | none =>
    match tx.getList bucket with
    | none => .err GoErr.ErrBucket tx
    | some l => Tx.lkeysAux tx bucket pattern f (l.Items.map Prod.fst)

/-- tx.ExpireList: immediate in-memory TTL and timestamp update, then one
Expire record carrying the ttl value. -/
def Tx.ExpireList (tx : Tx) (bucket key : String) (ttl : Nat) : Res Unit :=
  match tx.checkTxIsClosed with
  | some e => .err e tx
  | none =>
    match tx.getList bucket with
    | none => .err GoErr.ErrBucket tx
    | some l =>
      match (tx.setList bucket
          { l with TTL := aset l.TTL key ttl, TimeStamp := aset l.TimeStamp key tx.now }).push
          bucket key CmdFlag.DataExpireListFlag [IntToStr ((ttl : Nat) : Int)] with
      | .crash => .crash
      | .err e tx2 => .err e tx2
      | .ok _ tx2 => .ok () tx2

/-- tx.GetListTTL. -/
def Tx.GetListTTL (tx : Tx) (bucket key : String) : Res Nat :=
  match tx.checkTxIsClosed with
  | some e => .err e tx
  | none =>
    match tx.getList bucket with
    | none => .err GoErr.ErrBucket tx
    | some l =>
      match l.getTTL key with
      | .ok t => .ok t tx
      | .error e => .err e tx

/-! ### Basic lemmas about the embedding -/

theorem alookup_aset_self {α : Type} (m : List (String × α)) (k : String) (v : α) :
    alookup (aset m k v) k = some v := by
  induction m with
  | nil => simp [aset, alookup]
  | cons p rest ih =>
    obtain ⟨k', w⟩ := p
    by_cases hk : k' = k
    · simp [aset, hk, alookup]
    · simp [aset, hk, alookup, ih]

theorem aset_id {α : Type} {m : List (String × α)} {k : String} {v : α}
    (h : alookup m k = some v) : aset m k v = m := by
  induction m with
  | nil => simp [alookup] at h
  | cons p rest ih =>
    obtain ⟨k', w⟩ := p
    by_cases hk : k' = k
    · subst hk
      simp [alookup] at h
      simp [aset, h]
    · simp [alookup, hk] at h
      simp [aset, hk, ih h]

theorem aset_aset {α : Type} (m : List (String × α)) (k : String) (v w : α) :
    aset (aset m k v) k w = aset m k w := by
  induction m with
  | nil => simp [aset]
  | cons p rest ih =>
    obtain ⟨k', u⟩ := p
    by_cases hk : k' = k
    · simp [aset, hk]
    · simp [aset, hk, ih]

theorem isExpire_cases (l : ListStruct) (key : String) (now : Nat) :
    l.IsExpire key now = (false, l) ∨ l.IsExpire key now = (true, l.evict key) := by
  unfold ListStruct.IsExpire
  cases alookup l.TTL key with
  | none => left; rfl
  | some ttl =>
    by_cases h0 : ttl = 0
    · left; simp [h0]
    · by_cases hlt : (alookup l.TimeStamp key).getD 0 + ttl < now
      · right; simp [h0, hlt]
      · left; simp [h0, hlt]

theorem isExpire_false_snd {l : ListStruct} {key : String} {now : Nat}
    (h : (l.IsExpire key now).1 = false) : (l.IsExpire key now).2 = l := by
  rcases isExpire_cases l key now with hc | hc <;> rw [hc] <;> rw [hc] at h
  simp at h

theorem isExpire_true_snd {l : ListStruct} {key : String} {now : Nat}
    (h : (l.IsExpire key now).1 = true) : (l.IsExpire key now).2 = l.evict key := by
  rcases isExpire_cases l key now with hc | hc <;> rw [hc] <;> rw [hc] at h
  simp at h

theorem getList_setList_self (tx : Tx) (bucket : String) (l : ListStruct) :
    (tx.setList bucket l).getList bucket = some l := by
  simp [Tx.setList, Tx.getList, alookup_aset_self]

theorem setList_getList_id {tx : Tx} {bucket : String} {l : ListStruct}
    (h : tx.getList bucket = some l) : tx.setList bucket l = tx := by
  unfold Tx.getList at h
  unfold Tx.setList
  rw [aset_id h]

theorem checkExpire_none {tx : Tx} {bucket key : String}
    (h : tx.getList bucket = none) : tx.CheckExpire bucket key = none := by
  unfold Tx.CheckExpire
  rw [h]

theorem checkExpire_eq {tx : Tx} {bucket key : String} {l : ListStruct}
    (h : tx.getList bucket = some l) :
    tx.CheckExpire bucket key =
      some ((l.IsExpire key tx.now).1, tx.setList bucket (l.IsExpire key tx.now).2) := by
  unfold Tx.CheckExpire
  rw [h]
  cases hp : (l.IsExpire key tx.now).1 <;> simp [hp, Tx.push]

theorem checkExpire_not_expired {tx : Tx} {bucket key : String} {l : ListStruct}
    (h : tx.getList bucket = some l) (hne : (l.IsExpire key tx.now).1 = false) :
    tx.CheckExpire bucket key = some (false, tx) := by
  rw [checkExpire_eq h, hne, isExpire_false_snd hne, setList_getList_id h]

theorem checkExpire_expired {tx : Tx} {bucket key : String} {l : ListStruct}
    (h : tx.getList bucket = some l) (he : (l.IsExpire key tx.now).1 = true) :
    tx.CheckExpire bucket key = some (true, tx.setList bucket (l.evict key)) := by
  rw [checkExpire_eq h, he, isExpire_true_snd he]

theorem checkExpire_inv {tx tx1 : Tx} {bucket key : String} {b : Bool}
    (h : tx.CheckExpire bucket key = some (b, tx1)) :
    tx1.log = tx.log ∧ tx1.closed = tx.closed ∧ tx1.nputs = tx.nputs ∧
      tx1.now = tx.now ∧ tx1.putErr = tx.putErr ∧
      ((b = false ∧ tx1 = tx) ∨
        (b = true ∧ ∃ l, tx.getList bucket = some l ∧
          (l.IsExpire key tx.now).1 = true ∧ tx1 = tx.setList bucket (l.evict key))) := by
  cases hg : tx.getList bucket with
  | none => rw [checkExpire_none hg] at h; cases h
  | some l =>
    cases hb : (l.IsExpire key tx.now).1 with
    | false =>
      rw [checkExpire_not_expired hg hb] at h
      obtain ⟨rfl, rfl⟩ : false = b ∧ tx = tx1 := by
        constructor
        · exact congrArg Prod.fst (Option.some.inj h)
        · exact congrArg Prod.snd (Option.some.inj h)
      exact ⟨rfl, rfl, rfl, rfl, rfl, Or.inl ⟨rfl, rfl⟩⟩
    | true =>
      rw [checkExpire_expired hg hb] at h
      obtain ⟨rfl, rfl⟩ : true = b ∧ tx.setList bucket (l.evict key) = tx1 := by
        constructor
        · exact congrArg Prod.fst (Option.some.inj h)
        · exact congrArg Prod.snd (Option.some.inj h)
      exact ⟨rfl, rfl, rfl, rfl, rfl, Or.inr ⟨rfl, Exists.intro l ⟨rfl, hb, rfl⟩⟩⟩

theorem push_ok_all (bucket key : String) (fl : CmdFlag) :
    ∀ (vs : List String) (tx : Tx),
      (∀ j, j < vs.length → tx.putErr (tx.nputs + j) = false) →
      Tx.push tx bucket key fl vs =
        .ok () { tx with
          log := tx.log ++ vs.map (fun v => mkRecord bucket key v fl tx.now)
          nputs := tx.nputs + vs.length } := by
  intro vs
  induction vs with
  | nil => intro tx h; simp [Tx.push]
  | cons v rest ih =>
    intro tx h
    have h0 : tx.putErr tx.nputs = false := by simpa using h 0 (by simp)
    have step := ih { tx with
        log := tx.log ++ [mkRecord bucket key v fl tx.now]
        nputs := tx.nputs + 1 }
      (by
        intro j hj
        have := h (j + 1) (by simpa using Nat.succ_lt_succ hj)
        simpa [Nat.add_assoc, Nat.add_comm 1 j] using this)
    simp only [Tx.push, Tx.put, h0, Bool.false_eq_true, if_false, mkRecord] at step ⊢
    rw [step]
    simp [List.append_assoc, Nat.add_assoc, Nat.add_comm 1 rest.length]

theorem push_fail_at (bucket key : String) (fl : CmdFlag) :
    ∀ (vs : List String) (tx : Tx) (i : Nat),
      i < vs.length →
      (∀ j, j < i → tx.putErr (tx.nputs + j) = false) →
      tx.putErr (tx.nputs + i) = true →
      Tx.push tx bucket key fl vs =
        .err GoErr.putFail { tx with
          log := tx.log ++ (vs.take i).map (fun v => mkRecord bucket key v fl tx.now)
          nputs := tx.nputs + i + 1 } := by
  intro vs
  induction vs with
  | nil => intro tx i hi; simp at hi
  | cons v rest ih =>
    intro tx i hi hpre hfail
    cases i with
    | zero =>
      have h0 : tx.putErr tx.nputs = true := by simpa using hfail
      simp [Tx.push, Tx.put, h0]
    | succ i' =>
      have h0 : tx.putErr tx.nputs = false := by simpa using hpre 0 (Nat.succ_pos i')
      have step := ih { tx with
          log := tx.log ++ [mkRecord bucket key v fl tx.now]
          nputs := tx.nputs + 1 }
        i' (by simpa using Nat.lt_of_succ_lt_succ hi)
        (by
          intro j hj
          have := hpre (j + 1) (Nat.succ_lt_succ hj)
          simpa [Nat.add_assoc, Nat.add_comm 1 j] using this)
        (by
          have := hfail
          simpa [Nat.add_assoc, Nat.add_comm 1 i'] using this)
      simp only [Tx.push, Tx.put, h0, Bool.false_eq_true, if_false, mkRecord] at step ⊢
      rw [step]
      simp only [Res.err.injEq, Tx.mk.injEq, mkRecord, List.take_succ_cons, List.map_cons,
        List.append_assoc, List.singleton_append, true_and, and_true]
      omega

theorem push_err_inv :
    ∀ {vs : List String} {tx tx' : Tx} {bucket key : String} {fl : CmdFlag} {e : GoErr},
      Tx.push tx bucket key fl vs = .err e tx' →
      e = GoErr.putFail ∧ tx'.index = tx.index ∧ tx'.closed = tx.closed ∧
        tx'.now = tx.now ∧ tx'.log.length ≥ tx.log.length := by
  intro vs
  induction vs with
  | nil =>
    intro tx tx' bucket key fl e h
    simp [Tx.push] at h
  | cons v rest ih =>
    intro tx tx' bucket key fl e h
    by_cases h0 : tx.putErr tx.nputs = true
    · simp only [Tx.push, Tx.put, h0, if_true] at h
      injection h with h1 h2
      subst h1; subst h2
      exact ⟨rfl, rfl, rfl, rfl, le_refl _⟩
    · simp only [Tx.push, Tx.put, h0, Bool.false_eq_true, if_false] at h
      have := ih h
      refine ⟨this.1, this.2.1, this.2.2.1, this.2.2.2.1, ?_⟩
      calc tx.log.length ≤ (tx.log ++ [mkRecord bucket key v fl tx.now]).length := by
            simp
        _ ≤ tx'.log.length := by
            have h2 := this.2.2.2.2
            simpa [mkRecord] using h2

theorem push_ok_inv :
    ∀ {vs : List String} {tx tx' : Tx} {bucket key : String} {fl : CmdFlag} {u : Unit},
      Tx.push tx bucket key fl vs = .ok u tx' →
      tx'.index = tx.index ∧ tx'.closed = tx.closed ∧ tx'.now = tx.now ∧
        tx'.putErr = tx.putErr := by
  intro vs
  induction vs with
  | nil =>
    intro tx tx' bucket key fl u h
    simp only [Tx.push] at h
    injection h with h1 h2
    subst h2
    exact ⟨rfl, rfl, rfl, rfl⟩
  | cons v rest ih =>
    intro tx tx' bucket key fl u h
    by_cases h0 : tx.putErr tx.nputs = true
    · simp only [Tx.push, Tx.put, h0, if_true] at h
      exact Res.noConfusion h
    · simp only [Tx.push, Tx.put, h0, Bool.false_eq_true, if_false] at h
      have h2 := ih h
      exact h2

/-- The state footprint allowed for a call that fails a validation check: the
command log unchanged, and the registry unchanged except possibly the
expiration gate's eviction of the checked key. -/
def validationFrame (tx tx' : Tx) (bucket key : String) : Prop :=
  tx'.log = tx.log ∧
    (tx'.index = tx.index ∨
      ∃ l, tx.getList bucket = some l ∧
        tx'.index = aset tx.index bucket (ListStruct.evict l key))

theorem frame_refl (tx : Tx) (bucket key : String) : validationFrame tx tx bucket key :=
  ⟨rfl, Or.inl rfl⟩

theorem frame_of_checkExpire {tx tx1 : Tx} {bucket key : String} {b : Bool}
    (h : tx.CheckExpire bucket key = some (b, tx1)) :
    validationFrame tx tx1 bucket key := by
  have hi := checkExpire_inv h
  refine ⟨hi.1, ?_⟩
  rcases hi.2.2.2.2.2 with ⟨_, rfl⟩ | ⟨_, l, hg, _, rfl⟩
  · exact Or.inl rfl
  · exact Or.inr ⟨l, hg, rfl⟩

theorem checkExpire_false_inv {tx tx1 : Tx} {bucket key : String}
    (h : tx.CheckExpire bucket key = some (false, tx1)) :
    tx1 = tx ∧ ∃ l, tx.getList bucket = some l ∧ (l.IsExpire key tx.now).1 = false := by
  cases hg : tx.getList bucket with
  | none => rw [checkExpire_none hg] at h; cases h
  | some l =>
    cases hb : (l.IsExpire key tx.now).1 with
    | false =>
      rw [checkExpire_not_expired hg hb] at h
      have h2 : tx = tx1 := congrArg Prod.snd (Option.some.inj h)
      exact ⟨h2.symm, l, rfl, hb⟩
    | true =>
      rw [checkExpire_expired hg hb] at h
      have h2 : true = false := congrArg Prod.fst (Option.some.inj h)
      exact Bool.noConfusion h2

theorem checkExpire_true_inv {tx tx1 : Tx} {bucket key : String}
    (h : tx.CheckExpire bucket key = some (true, tx1)) :
    ∃ l, tx.getList bucket = some l ∧ (l.IsExpire key tx.now).1 = true ∧
      tx1 = tx.setList bucket (l.evict key) := by
  cases hg : tx.getList bucket with
  | none => rw [checkExpire_none hg] at h; cases h
  | some l =>
    cases hb : (l.IsExpire key tx.now).1 with
    | false =>
      rw [checkExpire_not_expired hg hb] at h
      have h2 : false = true := congrArg Prod.fst (Option.some.inj h)
      exact Bool.noConfusion h2
    | true =>
      rw [checkExpire_expired hg hb] at h
      have h2 : tx.setList bucket (l.evict key) = tx1 :=
        congrArg Prod.snd (Option.some.inj h)
      exact ⟨l, rfl, hb, h2.symm⟩

theorem rpeek_err_frame {tx tx' : Tx} {bucket key : String} {e : GoErr}
    (h : tx.RPeek bucket key = .err e tx') : validationFrame tx tx' bucket key := by
  unfold Tx.RPeek at h
  split at h
  · injection h with h1 h2; subst h2; exact frame_refl tx bucket key
  · split at h
    · injection h with h1 h2; subst h2; exact frame_refl tx bucket key
    · split at h
      · exact Res.noConfusion h
      · rename_i tx1 hce
        injection h with h1 h2; subst h2
        exact frame_of_checkExpire hce
      · rename_i tx1 hce
        obtain ⟨rfl, -⟩ := checkExpire_false_inv hce
        split at h
        · injection h with h1 h2; subst h2; exact frame_refl tx1 bucket key
        · split at h
          · exact Res.noConfusion h
          · injection h with h1 h2; subst h2; exact frame_refl tx1 bucket key

theorem lpeek_err_frame {tx tx' : Tx} {bucket key : String} {e : GoErr}
    (h : tx.LPeek bucket key = .err e tx') : validationFrame tx tx' bucket key := by
  unfold Tx.LPeek at h
  split at h
  · injection h with h1 h2; subst h2; exact frame_refl tx bucket key
  · split at h
    · injection h with h1 h2; subst h2; exact frame_refl tx bucket key
    · split at h
      · exact Res.noConfusion h
      · rename_i tx1 hce
        injection h with h1 h2; subst h2
        exact frame_of_checkExpire hce
      · rename_i tx1 hce
        obtain ⟨rfl, -⟩ := checkExpire_false_inv hce
        split at h
        · injection h with h1 h2; subst h2; exact frame_refl tx1 bucket key
        · split at h
          · exact Res.noConfusion h
          · injection h with h1 h2; subst h2; exact frame_refl tx1 bucket key

theorem lsize_err_frame {tx tx' : Tx} {bucket key : String} {e : GoErr}
    (h : tx.LSize bucket key = .err e tx') : validationFrame tx tx' bucket key := by
  unfold Tx.LSize at h
  split at h
  · injection h with h1 h2; subst h2; exact frame_refl tx bucket key
  · split at h
    · injection h with h1 h2; subst h2; exact frame_refl tx bucket key
    · split at h
      · exact Res.noConfusion h
      · rename_i tx1 hce
        injection h with h1 h2; subst h2
        exact frame_of_checkExpire hce
      · rename_i tx1 hce
        obtain ⟨rfl, -⟩ := checkExpire_false_inv hce
        split at h
        · injection h with h1 h2; subst h2; exact frame_refl tx1 bucket key
        · split at h
          · exact Res.noConfusion h
          · injection h with h1 h2; subst h2; exact frame_refl tx1 bucket key

theorem lrange_err_frame {tx tx' : Tx} {bucket key : String} {start stop : Int} {e : GoErr}
    (h : tx.LRange bucket key start stop = .err e tx') : validationFrame tx tx' bucket key := by
  unfold Tx.LRange at h
  split at h
  · injection h with h1 h2; subst h2; exact frame_refl tx bucket key
  · split at h
    · injection h with h1 h2; subst h2; exact frame_refl tx bucket key
    · split at h
      · exact Res.noConfusion h
      · rename_i tx1 hce
        injection h with h1 h2; subst h2
        exact frame_of_checkExpire hce
      · rename_i tx1 hce
        obtain ⟨rfl, -⟩ := checkExpire_false_inv hce
        split at h
        · injection h with h1 h2; subst h2; exact frame_refl tx1 bucket key
        · split at h
          · exact Res.noConfusion h
          · injection h with h1 h2; subst h2; exact frame_refl tx1 bucket key

theorem getListTTL_err_frame {tx tx' : Tx} {bucket key : String} {e : GoErr}
    (h : tx.GetListTTL bucket key = .err e tx') : validationFrame tx tx' bucket key := by
  unfold Tx.GetListTTL at h
  split at h
  · injection h with h1 h2; subst h2; exact frame_refl tx bucket key
  · split at h
    · injection h with h1 h2; subst h2; exact frame_refl tx bucket key
    · split at h
      · exact Res.noConfusion h
      · injection h with h1 h2; subst h2; exact frame_refl tx bucket key

theorem size_ok_inv {l : ListStruct} {key : String} {n : Int}
    (h : l.size key = .ok n) :
    ∃ xs, alookup l.Items key = some xs ∧ n = (xs.length : Int) := by
  unfold ListStruct.size at h
  split at h
  · exact Except.noConfusion h
  · rename_i xs hx
    injection h with h1
    exact ⟨xs, hx, h1.symm⟩

theorem lsize_ok_inv {tx tx' : Tx} {bucket key : String} {n : Int}
    (h : tx.LSize bucket key = .ok n tx') :
    tx' = tx ∧ ∃ l xs, tx.getList bucket = some l ∧ (l.IsExpire key tx.now).1 = false ∧
      alookup l.Items key = some xs ∧ n = (xs.length : Int) := by
  unfold Tx.LSize at h
  split at h
  · exact Res.noConfusion h
  · split at h
    · exact Res.noConfusion h
    · split at h
      · exact Res.noConfusion h
      · exact Res.noConfusion h
      · rename_i tx1 hce
        obtain ⟨rfl, l2, hg2, hne⟩ := checkExpire_false_inv hce
        split at h
        · exact Res.noConfusion h
        · rename_i l3 hg3
          split at h
          · rename_i n0 hsz
            injection h with h1 h2
            subst h2
            obtain ⟨xs, hx, hn⟩ := size_ok_inv hsz
            have hl : l3 = l2 := by
              rw [hg3] at hg2
              exact Option.some.inj hg2
            subst hl
            subst h1
            exact ⟨rfl, l3, xs, hg3, hne, hx, hn⟩
          · exact Res.noConfusion h

theorem rpush_val_err_frame {tx tx' : Tx} {bucket key : String} {values : List String} {e : GoErr}
    (h : tx.RPush bucket key values = .err e tx') (hv : e.isValidation = true) :
    validationFrame tx tx' bucket key := by
  unfold Tx.RPush at h
  split at h
  · injection h with h1 h2; subst h2; exact frame_refl tx bucket key
  · split at h
    · exact Res.noConfusion h
    · rename_i tx1 hce
      injection h with h1 h2; subst h2
      exact frame_of_checkExpire hce
    · rename_i tx1 hce
      obtain ⟨rfl, -⟩ := checkExpire_false_inv hce
      split at h
      · injection h with h1 h2; subst h2; exact frame_refl tx1 bucket key
      · have hp := push_err_inv h
        rw [hp.1] at hv
        simp [GoErr.isValidation] at hv

theorem lpush_val_err_frame {tx tx' : Tx} {bucket key : String} {values : List String} {e : GoErr}
    (h : tx.LPush bucket key values = .err e tx') (hv : e.isValidation = true) :
    validationFrame tx tx' bucket key := by
  unfold Tx.LPush at h
  split at h
  · injection h with h1 h2; subst h2; exact frame_refl tx bucket key
  · split at h
    · exact Res.noConfusion h
    · rename_i tx1 hce
      injection h with h1 h2; subst h2
      exact frame_of_checkExpire hce
    · rename_i tx1 hce
      obtain ⟨rfl, -⟩ := checkExpire_false_inv hce
      split at h
      · injection h with h1 h2; subst h2; exact frame_refl tx1 bucket key
      · have hp := push_err_inv h
        rw [hp.1] at hv
        simp [GoErr.isValidation] at hv

theorem rpop_val_err_frame {tx tx' : Tx} {bucket key : String} {e : GoErr}
    (h : tx.RPop bucket key = .err e tx') (hv : e.isValidation = true) :
    validationFrame tx tx' bucket key := by
  unfold Tx.RPop at h
  split at h
  · exact Res.noConfusion h
  · rename_i e0 tx1 hpk
    injection h with h1 h2; subst h2
    exact rpeek_err_frame hpk
  · rename_i item tx1 hpk
    split at h
    · exact Res.noConfusion h
    · rename_i e1 tx2 hpu
      injection h with h1 h2
      have hp := push_err_inv hpu
      rw [← h1, hp.1] at hv
      simp [GoErr.isValidation] at hv
    · exact Res.noConfusion h

theorem lpop_val_err_frame {tx tx' : Tx} {bucket key : String} {e : GoErr}
    (h : tx.LPop bucket key = .err e tx') (hv : e.isValidation = true) :
    validationFrame tx tx' bucket key := by
  unfold Tx.LPop at h
  split at h
  · exact Res.noConfusion h
  · rename_i e0 tx1 hpk
    injection h with h1 h2; subst h2
    exact lpeek_err_frame hpk
  · rename_i item tx1 hpk
    split at h
    · exact Res.noConfusion h
    · rename_i e1 tx2 hpu
      injection h with h1 h2
      have hp := push_err_inv hpu
      rw [← h1, hp.1] at hv
      simp [GoErr.isValidation] at hv
    · exact Res.noConfusion h

theorem lremnum_of_present {l : ListStruct} {key : String} {xs : List String}
    (hx : alookup l.Items key = some xs) (count : Int) (value : String) :
    l.LRemNum key count value =
      .ok (((listRemove xs count value).1 : Int),
        { l with Items := aset l.Items key (listRemove xs count value).2 }) := by
  unfold ListStruct.LRemNum
  rw [hx]

theorem lrem_val_err_frame {tx tx' : Tx} {bucket key : String} {count : Int} {value : String}
    {e : GoErr} (h : tx.LRem bucket key count value = .err e tx') (hv : e.isValidation = true) :
    validationFrame tx tx' bucket key := by
  unfold Tx.LRem at h
  split at h
  · exact Res.noConfusion h
  · rename_i e0 tx1 hsz
    injection h with h1 h2; subst h2
    exact lsize_err_frame hsz
  · rename_i size tx1 hsz
    obtain ⟨rfl, l0, xs, hg0, hne0, hx0, rfl⟩ := lsize_ok_inv hsz
    split at h
    · injection h with h1 h2; subst h2; exact frame_refl _ bucket key
    · split at h
      · exact Res.noConfusion h
      · rename_i e1 tx2 hpu
        injection h with h1 h2
        have hp := push_err_inv hpu
        rw [← h1, hp.1] at hv
        simp [GoErr.isValidation] at hv
      · rename_i u tx2 hpu
        have hg2 : tx2.getList bucket = some l0 := by
          unfold Tx.getList
          rw [(push_ok_inv hpu).1]
          exact hg0
        split at h
        · rename_i hg3
          rw [hg2] at hg3
          exact Option.noConfusion hg3
        · rename_i l4 hg3
          have hl4 : l4 = l0 := by
            rw [hg2] at hg3
            exact (Option.some.inj hg3).symm
          subst hl4
          rw [lremnum_of_present hx0 count value] at h
          split at h
          · rename_i e2 hrn
            exact Except.noConfusion hrn
          · exact Res.noConfusion h

theorem lset_val_err_frame {tx tx' : Tx} {bucket key : String} {index : Int} {value : String}
    {e : GoErr} (h : tx.LSet bucket key index value = .err e tx') (hv : e.isValidation = true) :
    validationFrame tx tx' bucket key := by
  unfold Tx.LSet at h
  split at h
  · injection h with h1 h2; subst h2; exact frame_refl tx bucket key
  · split at h
    · injection h with h1 h2; subst h2; exact frame_refl tx bucket key
    · split at h
      · exact Res.noConfusion h
      · rename_i tx1 hce
        injection h with h1 h2; subst h2
        exact frame_of_checkExpire hce
      · rename_i tx1 hce
        obtain ⟨rfl, -⟩ := checkExpire_false_inv hce
        split at h
        · injection h with h1 h2; subst h2; exact frame_refl tx1 bucket key
        · split at h
          · injection h with h1 h2; subst h2; exact frame_refl tx1 bucket key
          · split at h
            · exact Res.noConfusion h
            · rename_i e2 tx2 hsz
              split at h
              · injection h with h1 h2; subst h2
                exact lsize_err_frame hsz
              · have hp := push_err_inv h
                rw [hp.1] at hv
                simp [GoErr.isValidation] at hv
            · rename_i size tx2 hsz
              obtain ⟨rfl, -⟩ := lsize_ok_inv hsz
              split at h
              · injection h with h1 h2; subst h2; exact frame_refl tx2 bucket key
              · have hp := push_err_inv h
                rw [hp.1] at hv
                simp [GoErr.isValidation] at hv

theorem ltrim_val_err_frame {tx tx' : Tx} {bucket key : String} {start stop : Int}
    {e : GoErr} (h : tx.LTrim bucket key start stop = .err e tx') (hv : e.isValidation = true) :
    validationFrame tx tx' bucket key := by
  unfold Tx.LTrim at h
  split at h
  · injection h with h1 h2; subst h2; exact frame_refl tx bucket key
  · split at h
    · injection h with h1 h2; subst h2; exact frame_refl tx bucket key
    · split at h
      · exact Res.noConfusion h
      · rename_i tx1 hce
        injection h with h1 h2; subst h2
        exact frame_of_checkExpire hce
      · rename_i tx1 hce
        obtain ⟨rfl, -⟩ := checkExpire_false_inv hce
        split at h
        · injection h with h1 h2; subst h2; exact frame_refl tx1 bucket key
        · split at h
          · injection h with h1 h2; subst h2; exact frame_refl tx1 bucket key
          · split at h
            · exact Res.noConfusion h
            · rename_i e2 tx2 hlr
              injection h with h1 h2; subst h2
              exact lrange_err_frame hlr
            · have hp := push_err_inv h
              rw [hp.1] at hv
              simp [GoErr.isValidation] at hv

theorem lrembyindex_val_err_frame {tx tx' : Tx} {bucket key : String} {indexes : List Int}
    {e : GoErr} (h : tx.LRemByIndex bucket key indexes = .err e tx')
    (hv : e.isValidation = true) :
    validationFrame tx tx' bucket key := by
  unfold Tx.LRemByIndex at h
  split at h
  · injection h with h1 h2; subst h2; exact frame_refl tx bucket key
  · split at h
    · injection h with h1 h2; subst h2; exact frame_refl tx bucket key
    · split at h
      · exact Res.noConfusion h
      · rename_i tx1 hce
        injection h with h1 h2; subst h2
        exact frame_of_checkExpire hce
      · rename_i tx1 hce
        obtain ⟨rfl, -⟩ := checkExpire_false_inv hce
        split at h
        · injection h with h1 h2; subst h2; exact frame_refl tx1 bucket key
        · split at h
          · rename_i e2 hpc
            injection h with h1 h2; subst h2; exact frame_refl tx1 bucket key
          · rename_i n hpc
            split at h
            · exact Res.noConfusion h
            · split at h
              · exact Res.noConfusion h
              · rename_i e3 tx2 hpu
                injection h with h1 h2
                have hp := push_err_inv hpu
                rw [← h1, hp.1] at hv
                simp [GoErr.isValidation] at hv
              · exact Res.noConfusion h

theorem expirelist_val_err_frame {tx tx' : Tx} {bucket key : String} {ttl : Nat}
    {e : GoErr} (h : tx.ExpireList bucket key ttl = .err e tx')
    (hv : e.isValidation = true) :
    validationFrame tx tx' bucket key := by
  unfold Tx.ExpireList at h
  split at h
  · injection h with h1 h2; subst h2; exact frame_refl tx bucket key
  · split at h
    · injection h with h1 h2; subst h2; exact frame_refl tx bucket key
    · split at h
      · exact Res.noConfusion h
      · rename_i e1 tx2 hpu
        injection h with h1 h2
        have hp := push_err_inv hpu
        rw [← h1, hp.1] at hv
        simp [GoErr.isValidation] at hv
      · exact Res.noConfusion h

theorem matchForRange_snd (pattern key : String) (f : String → Bool) :
    (MatchForRange pattern key f).2 = none ∨
      (MatchForRange pattern key f).2 = some (GoErr.external "ErrBadPattern") := by
  unfold MatchForRange patternMatch
  by_cases h1 : pattern = "*"
  · rcases Bool.eq_false_or_eq_true (f key) with hf | hf <;> simp [h1, hf]
  · by_cases h2 : pattern = "["
    · simp [h1, h2]
    · by_cases h3 : pattern = key
      · subst h3
        rcases Bool.eq_false_or_eq_true (f pattern) with hf | hf <;> simp [h1, h2, hf]
      · simp [h1, h2, h3]

theorem lkeysAux_err_external :
    ∀ {keys : List String} {tx tx' : Tx} {bucket pattern : String} {f : String → Bool}
      {e : GoErr},
      Tx.lkeysAux tx bucket pattern f keys = .err e tx' → ∃ s, e = GoErr.external s := by
  intro keys
  induction keys with
  | nil =>
    intro tx tx' bucket pattern f e h
    exact Res.noConfusion h
  | cons k rest ih =>
    intro tx tx' bucket pattern f e h
    simp only [Tx.lkeysAux] at h
    split at h
    · exact Res.noConfusion h
    · exact ih h
    · rename_i tx1 hce
      split at h
      · split at h
        · rename_i e1 hp
          injection h with h1 h2
          subst h1
          rcases matchForRange_snd pattern k f with hm | hm
          · rw [hp] at hm
            exact Option.noConfusion hm
          · rw [hp] at hm
            exact ⟨"ErrBadPattern", Option.some.inj hm⟩
        · exact Res.noConfusion h
      · exact ih h

theorem lkeys_val_err_frame {tx tx' : Tx} {bucket pattern key : String} {f : String → Bool}
    {e : GoErr} (h : tx.LKeys bucket pattern f = .err e tx') (hv : e.isValidation = true) :
    validationFrame tx tx' bucket key := by
  unfold Tx.LKeys at h
  split at h
  · injection h with h1 h2; subst h2; exact frame_refl tx bucket key
  · split at h
    · injection h with h1 h2; subst h2; exact frame_refl tx bucket key
    · obtain ⟨s, rfl⟩ := lkeysAux_err_external h
      simp [GoErr.isValidation] at hv

/-! ### Concrete states for witnesses and counterexamples -/

/-- A structure whose key "k" holds one element and is expired at time 10
(ttl 1 second, set at time 0). -/
def expiredStruct : ListStruct :=
  { Items := [("k", ["x"])], TTL := [("k", 1)], TimeStamp := [("k", 0)] }

/-- A transaction whose bucket "b" holds `expiredStruct`, with clock 10 and an
append oracle that never fails. -/
def txExpired : Tx :=
  { closed := false, index := [("b", expiredStruct)], log := [], putErr := fun _ => false,
    nputs := 0, now := 10 }

/-- A structure whose key "k" holds three elements and never expires. -/
def liveStruct : ListStruct :=
  { Items := [("k", ["x", "y", "x"])], TTL := [], TimeStamp := [] }

/-- A transaction whose bucket "b" holds `liveStruct`, with clock 10 and an
append oracle that never fails. -/
def txLive : Tx :=
  { closed := false, index := [("b", liveStruct)], log := [], putErr := fun _ => false,
    nputs := 0, now := 10 }

/-- Like `txLive` but the second append attempt (ordinal 1) fails. -/
def txFailAt1 : Tx :=
  { closed := false, index := [("b", liveStruct)], log := [], putErr := fun n => n == 1,
    nputs := 0, now := 10 }

/-- Like `txLive` but every append attempt fails. -/
def txFailAll : Tx :=
  { closed := false, index := [("b", liveStruct)], log := [], putErr := fun _ => true,
    nputs := 0, now := 10 }

/-- An open transaction whose registry has no bucket at all. -/
def txEmptyIdx : Tx :=
  { closed := false, index := [], log := [], putErr := fun _ => false,
    nputs := 0, now := 10 }

/-! ### Claims -/

/-- C1: the claim says every list operation on a bucket that has no list
structure in the registry fails with BucketNotFound (ErrBucket) and has no
effect, and in particular that RPush and LPush return BucketNotFound rather
than crashing.  What the code does: every operation except RPush and LPush
nil-checks the registry lookup and returns ErrBucket with no effect, but
RPush and LPush run their expiration check first, which dereferences the nil
lookup result without a guard: they crash and never return ErrBucket. -/
theorem c1_missing_bucket (tx : Tx) (bucket key pattern : String) (values : List String)
    (count index start stop : Int) (value : String) (indexes : List Int) (ttl : Nat)
    (f : String → Bool)
    (hopen : tx.closed = false) (hmiss : tx.getList bucket = none) :
    ((tx.RPush bucket key values).isCrash = true ∧
      (tx.LPush bucket key values).isCrash = true) ∧
    ((tx.RPeek bucket key).errOf = some GoErr.ErrBucket ∧
      (tx.RPeek bucket key).log = some tx.log ∧ (tx.RPeek bucket key).idx = some tx.index) ∧
    ((tx.LPeek bucket key).errOf = some GoErr.ErrBucket ∧
      (tx.LPeek bucket key).log = some tx.log ∧ (tx.LPeek bucket key).idx = some tx.index) ∧
    ((tx.RPop bucket key).errOf = some GoErr.ErrBucket ∧
      (tx.RPop bucket key).log = some tx.log ∧ (tx.RPop bucket key).idx = some tx.index) ∧
    ((tx.LPop bucket key).errOf = some GoErr.ErrBucket ∧
      (tx.LPop bucket key).log = some tx.log ∧ (tx.LPop bucket key).idx = some tx.index) ∧
    ((tx.LSize bucket key).errOf = some GoErr.ErrBucket ∧
      (tx.LSize bucket key).log = some tx.log ∧ (tx.LSize bucket key).idx = some tx.index) ∧
    ((tx.LRange bucket key start stop).errOf = some GoErr.ErrBucket ∧
      (tx.LRange bucket key start stop).log = some tx.log ∧
      (tx.LRange bucket key start stop).idx = some tx.index) ∧
    ((tx.LRem bucket key count value).errOf = some GoErr.ErrBucket ∧
      (tx.LRem bucket key count value).log = some tx.log ∧
      (tx.LRem bucket key count value).idx = some tx.index) ∧
    ((tx.LSet bucket key index value).errOf = some GoErr.ErrBucket ∧
      (tx.LSet bucket key index value).log = some tx.log ∧
      (tx.LSet bucket key index value).idx = some tx.index) ∧
    ((tx.LTrim bucket key start stop).errOf = some GoErr.ErrBucket ∧
      (tx.LTrim bucket key start stop).log = some tx.log ∧
      (tx.LTrim bucket key start stop).idx = some tx.index) ∧
    ((tx.LRemByIndex bucket key indexes).errOf = some GoErr.ErrBucket ∧
      (tx.LRemByIndex bucket key indexes).log = some tx.log ∧
      (tx.LRemByIndex bucket key indexes).idx = some tx.index) ∧
    ((tx.LKeys bucket pattern f).errOf = some GoErr.ErrBucket ∧
      (tx.LKeys bucket pattern f).log = some tx.log ∧
      (tx.LKeys bucket pattern f).idx = some tx.index) ∧
    ((tx.ExpireList bucket key ttl).errOf = some GoErr.ErrBucket ∧
      (tx.ExpireList bucket key ttl).log = some tx.log ∧
      (tx.ExpireList bucket key ttl).idx = some tx.index) ∧
    ((tx.GetListTTL bucket key).errOf = some GoErr.ErrBucket ∧
      (tx.GetListTTL bucket key).log = some tx.log ∧
      (tx.GetListTTL bucket key).idx = some tx.index) := by
  have hcl : tx.checkTxIsClosed = none := by simp [Tx.checkTxIsClosed, hopen]
  have hce := @checkExpire_none tx bucket key hmiss
  refine ⟨⟨?_, ?_⟩, ⟨?_, ?_, ?_⟩, ⟨?_, ?_, ?_⟩, ⟨?_, ?_, ?_⟩, ⟨?_, ?_, ?_⟩, ⟨?_, ?_, ?_⟩,
    ⟨?_, ?_, ?_⟩, ⟨?_, ?_, ?_⟩, ⟨?_, ?_, ?_⟩, ⟨?_, ?_, ?_⟩, ⟨?_, ?_, ?_⟩, ⟨?_, ?_, ?_⟩,
    ⟨?_, ?_, ?_⟩, ⟨?_, ?_, ?_⟩⟩ <;>
    simp [Tx.RPush, Tx.LPush, Tx.RPeek, Tx.LPeek, Tx.RPop, Tx.LPop, Tx.LSize, Tx.LRange,
      Tx.LRem, Tx.LSet, Tx.LTrim, Tx.LRemByIndex, Tx.LKeys, Tx.ExpireList, Tx.GetListTTL,
      hcl, hmiss, hce, Res.isCrash, Res.errOf, Res.log, Res.idx]

/-- C1 witness: on the concrete empty-registry transaction, RPush crashes
while LPeek reports ErrBucket with no effect. -/
theorem c1_missing_bucket_witness :
    txEmptyIdx.closed = false ∧ txEmptyIdx.getList "b" = none ∧
      (Tx.RPush txEmptyIdx "b" "k" ["v"]).isCrash = true ∧
      (Tx.LPeek txEmptyIdx "b" "k").errOf = some GoErr.ErrBucket :=
  ⟨rfl, by decide,
    (c1_missing_bucket txEmptyIdx "b" "k" "*" ["v"] 0 0 0 0 "v" [] 0 (fun _ => true)
      rfl (by decide)).1.1,
    (c1_missing_bucket txEmptyIdx "b" "k" "*" ["v"] 0 0 0 0 "v" [] 0 (fun _ => true)
      rfl (by decide)).2.2.1.1⟩

/-- C7: RPush and LPush with a caller-supplied key containing the reserved
separator fail with ErrSeparatorForListKey, and such a call writes no command
record and leaves the registry untouched (the result state is the unchanged
transaction), provided the call reaches the separator check (open transaction,
bucket present, gate reports the key not expired). -/
theorem c7_separator (tx : Tx) (bucket key : String) (values : List String) (l : ListStruct)
    (hopen : tx.closed = false) (hb : tx.getList bucket = some l)
    (hne : (l.IsExpire key tx.now).1 = false) (hsep : containsSeparator key = true) :
    tx.RPush bucket key values = .err GoErr.ErrSeparatorForListKey tx ∧
      tx.LPush bucket key values = .err GoErr.ErrSeparatorForListKey tx := by
  have hcl : tx.checkTxIsClosed = none := by simp [Tx.checkTxIsClosed, hopen]
  constructor <;>
    simp [Tx.RPush, Tx.LPush, hcl, checkExpire_not_expired hb hne, hsep]

/-- C7 witness: pushing under key "k|1" on the concrete live transaction
fails with the separator error and changes nothing. -/
theorem c7_separator_witness :
    txLive.closed = false ∧ txLive.getList "b" = some liveStruct ∧
      (liveStruct.IsExpire "k|1" txLive.now).1 = false ∧
      containsSeparator "k|1" = true ∧
      Tx.RPush txLive "b" "k|1" ["v"] = .err GoErr.ErrSeparatorForListKey txLive :=
  ⟨rfl, by decide, by decide, by decide,
    (c7_separator txLive "b" "k|1" ["v"] liveStruct rfl (by decide) (by decide) (by decide)).1⟩

/-- C10 (amended): CheckExpire's tombstone write is an invocation of the push
helper with no values, so it appends nothing and cannot fail; for every
expired key CheckExpire reports true (the caller surfaces KeyNotFound), the
key is evicted from the in-memory structure, and the command log is unchanged:
the durable record of the eviction is always absent, not merely lost when an
append error is discarded. -/
theorem c10_checkexpire (tx : Tx) (bucket key : String) (l : ListStruct)
    (hb : tx.getList bucket = some l) (he : (l.IsExpire key tx.now).1 = true) :
    tx.CheckExpire bucket key = some (true, tx.setList bucket (l.evict key)) ∧
      (tx.setList bucket (l.evict key)).log = tx.log :=
  ⟨checkExpire_expired hb he, rfl⟩

/-- C10 witness: the concrete expired key is reported expired with the log
unchanged. -/
theorem c10_checkexpire_witness :
    txExpired.getList "b" = some expiredStruct ∧
      (expiredStruct.IsExpire "k" txExpired.now).1 = true ∧
      Tx.CheckExpire txExpired "b" "k" =
        some (true, txExpired.setList "b" (expiredStruct.evict "k")) :=
  ⟨by decide, by decide,
    (c10_checkexpire txExpired "b" "k" expiredStruct (by decide) (by decide)).1⟩

/-- C10 counterexample: the claim reads CheckExpire as appending a Delete
tombstone record whose error is discarded, so that the durable eviction can be
lost when that append fails.  On the code, even with an append oracle that
never fails, CheckExpire on an expired key reports true yet leaves the log
without any record: no tombstone append ever happens. -/
theorem c10_counterexample :
    (∀ n, txExpired.putErr n = false) ∧
      (Tx.CheckExpire txExpired "b" "k").map Prod.fst = some true ∧
      (Tx.CheckExpire txExpired "b" "k").map (fun p => p.2.log) = some txExpired.log :=
  ⟨fun _ => rfl, by decide, by decide⟩

/-- C2 counterexample: the claim allows only two exceptions (mid-sequence
multi-value push failure, SetExpiry's in-memory TTL update) to "a validation
failure leaves all state unchanged".  On the code, a read that fails with
KeyNotFound because the key is expired also changes state: the expiration
gate synchronously evicts the key from the registry. -/
theorem c2_counterexample :
    (Tx.RPeek txExpired "b" "k").errOf = some GoErr.ErrKeyNotFound ∧
      (Tx.RPeek txExpired "b" "k").idx ≠ some txExpired.index := by
  decide

/-- C2 (amended): for every operation, a call that fails with a validation
error (TransactionClosed, BucketNotFound, KeyNotFound including expired,
SeparatorViolation, CountOutOfRange, IndexOutOfRange) appends no command
record, and leaves the registry unchanged except possibly the expiration
gate's synchronous in-memory eviction of the checked key (the third
exception, beside the two documented ones, that the code's lazy-expiration
gate forces). -/
theorem c2_validation_frame (tx tx' : Tx) (bucket key pattern : String)
    (values : List String) (count index start stop : Int) (value : String)
    (indexes : List Int) (ttl : Nat) (f : String → Bool) (e : GoErr)
    (hv : e.isValidation = true) :
    (tx.RPeek bucket key = .err e tx' → validationFrame tx tx' bucket key) ∧
    (tx.LPeek bucket key = .err e tx' → validationFrame tx tx' bucket key) ∧
    (tx.RPop bucket key = .err e tx' → validationFrame tx tx' bucket key) ∧
    (tx.LPop bucket key = .err e tx' → validationFrame tx tx' bucket key) ∧
    (tx.RPush bucket key values = .err e tx' → validationFrame tx tx' bucket key) ∧
    (tx.LPush bucket key values = .err e tx' → validationFrame tx tx' bucket key) ∧
    (tx.LSize bucket key = .err e tx' → validationFrame tx tx' bucket key) ∧
    (tx.LRange bucket key start stop = .err e tx' → validationFrame tx tx' bucket key) ∧
    (tx.LRem bucket key count value = .err e tx' → validationFrame tx tx' bucket key) ∧
    (tx.LSet bucket key index value = .err e tx' → validationFrame tx tx' bucket key) ∧
    (tx.LTrim bucket key start stop = .err e tx' → validationFrame tx tx' bucket key) ∧
    (tx.LRemByIndex bucket key indexes = .err e tx' → validationFrame tx tx' bucket key) ∧
    (tx.LKeys bucket pattern f = .err e tx' → validationFrame tx tx' bucket key) ∧
    (tx.ExpireList bucket key ttl = .err e tx' → validationFrame tx tx' bucket key) ∧
    (tx.GetListTTL bucket key = .err e tx' → validationFrame tx tx' bucket key) :=
  ⟨fun h => rpeek_err_frame h,
    fun h => lpeek_err_frame h,
    fun h => rpop_val_err_frame h hv,
    fun h => lpop_val_err_frame h hv,
    fun h => rpush_val_err_frame h hv,
    fun h => lpush_val_err_frame h hv,
    fun h => lsize_err_frame h,
    fun h => lrange_err_frame h,
    fun h => lrem_val_err_frame h hv,
    fun h => lset_val_err_frame h hv,
    fun h => ltrim_val_err_frame h hv,
    fun h => lrembyindex_val_err_frame h hv,
    fun h => lkeys_val_err_frame h hv,
    fun h => expirelist_val_err_frame h hv,
    fun h => getListTTL_err_frame h⟩

/-- C2 witness: the missing-bucket failure of LPeek on the concrete
empty-registry transaction satisfies the validation frame. -/
theorem c2_validation_frame_witness :
    GoErr.ErrBucket.isValidation = true ∧ validationFrame txEmptyIdx txEmptyIdx "b" "k" :=
  ⟨by decide,
    (c2_validation_frame txEmptyIdx txEmptyIdx "b" "k" "*" [] 0 0 0 0 "" [] 0
      (fun _ => true) GoErr.ErrBucket (by decide)).2.1 rfl⟩

theorem lsize_ok_direct {tx : Tx} {bucket key : String} {l : ListStruct} {xs : List String}
    (hopen : tx.closed = false) (hb : tx.getList bucket = some l)
    (hne : (l.IsExpire key tx.now).1 = false) (hx : alookup l.Items key = some xs) :
    tx.LSize bucket key = .ok (xs.length : Int) tx := by
  have hcl : tx.checkTxIsClosed = none := by simp [Tx.checkTxIsClosed, hopen]
  simp [Tx.LSize, hcl, hb, checkExpire_not_expired hb hne, ListStruct.size, hx]

/-- C3: LRem with count > size or count < -size fails with CountOutOfRange
and appends nothing; otherwise it appends exactly one RemoveByCount record
under the unchanged key whose value payload is the composite
"<count>|<value>", then performs the removal synchronously through the
external structure (the registry reflects the removal in the same call) and
returns the removed count from that same call. -/
theorem c3_lrem (tx : Tx) (bucket key : String) (count : Int) (value : String)
    (l : ListStruct) (xs : List String)
    (hopen : tx.closed = false) (hb : tx.getList bucket = some l)
    (hne : (l.IsExpire key tx.now).1 = false)
    (hx : alookup l.Items key = some xs)
    (hput : tx.putErr tx.nputs = false) :
    (count > (xs.length : Int) ∨ count < -(xs.length : Int) →
      tx.LRem bucket key count value = .err GoErr.ErrCount tx) ∧
    (¬(count > (xs.length : Int) ∨ count < -(xs.length : Int)) →
      tx.LRem bucket key count value =
        .ok ((listRemove xs count value).1 : Int)
          { tx with
            index := aset tx.index bucket
              { l with Items := aset l.Items key (listRemove xs count value).2 }
            log := tx.log ++ [mkRecord bucket key
              (IntToStr count ++ SeparatorForListKey ++ value) CmdFlag.DataLRemFlag tx.now]
            nputs := tx.nputs + 1 }) := by
  have hsz := lsize_ok_direct hopen hb hne hx
  constructor
  · intro hc
    simp only [Tx.LRem, hsz]
    rw [if_pos hc]
  · intro hc
    simp only [Tx.LRem, hsz]
    rw [if_neg hc]
    have hpush : tx.push bucket key CmdFlag.DataLRemFlag
        [IntToStr count ++ SeparatorForListKey ++ value] =
        .ok () { tx with
          log := tx.log ++ [mkRecord bucket key
            (IntToStr count ++ SeparatorForListKey ++ value) CmdFlag.DataLRemFlag tx.now]
          nputs := tx.nputs + 1 } := by
      simp [Tx.push, Tx.put, hput, mkRecord]
    rw [hpush]
    have hg2 : ({ tx with
        log := tx.log ++ [mkRecord bucket key
          (IntToStr count ++ SeparatorForListKey ++ value) CmdFlag.DataLRemFlag tx.now]
        nputs := tx.nputs + 1 } : Tx).getList bucket = some l := hb
    simp [hg2, lremnum_of_present hx count value, Tx.setList]

/-- C3 witness: removing one occurrence of "x" from the concrete three-element
list appends the RemoveByCount record "1|x" and returns removed count 1. -/
theorem c3_lrem_witness :
    ¬((1 : Int) > ((3 : Nat) : Int) ∨ (1 : Int) < -((3 : Nat) : Int)) ∧
      Tx.LRem txLive "b" "k" 1 "x" =
        .ok ((listRemove ["x", "y", "x"] 1 "x").1 : Int)
          { txLive with
            index := aset txLive.index "b"
              { liveStruct with Items := aset liveStruct.Items "k" (listRemove ["x", "y", "x"] 1 "x").2 }
            log := txLive.log ++ [mkRecord "b" "k"
              (IntToStr 1 ++ SeparatorForListKey ++ "x") CmdFlag.DataLRemFlag txLive.now]
            nputs := txLive.nputs + 1 } := by
  constructor
  · decide
  · exact (c3_lrem txLive "b" "k" 1 "x" liveStruct ["x", "y", "x"] rfl (by decide)
      (by decide) (by decide) rfl).2 (by decide)

/-- C4: LRemByIndex sorts the indices ascending, then asks the external
structure for a non-mutating precheck of how many are removable; if the
precheck errors, the call returns that error with no command record appended
and no state change; a zero precheck returns (0, no error) with no record
appended; otherwise exactly one RemoveByIndexSet record carrying the
marshaled sorted indices is appended under the unchanged key and the returned
count equals the precheck result. -/
theorem c4_lrembyindex (tx : Tx) (bucket key : String) (indexes : List Int)
    (l : ListStruct)
    (hopen : tx.closed = false) (hb : tx.getList bucket = some l)
    (hne : (l.IsExpire key tx.now).1 = false)
    (hput : tx.putErr tx.nputs = false) :
    List.Sorted (fun a b : Int => a ≤ b) (List.insertionSort (fun a b : Int => a ≤ b) indexes) ∧
    (List.insertionSort (fun a b : Int => a ≤ b) indexes).Perm indexes ∧
    (∀ e, l.LRemByIndexPreCheck key (List.insertionSort (fun a b : Int => a ≤ b) indexes) =
        .error e →
      tx.LRemByIndex bucket key indexes = .err e tx) ∧
    (∀ xs, alookup l.Items key = some xs →
      precheckCount xs.length (List.insertionSort (fun a b : Int => a ≤ b) indexes) = 0 →
      tx.LRemByIndex bucket key indexes = .ok 0 tx) ∧
    (∀ xs, alookup l.Items key = some xs →
      precheckCount xs.length (List.insertionSort (fun a b : Int => a ≤ b) indexes) ≠ 0 →
      tx.LRemByIndex bucket key indexes =
        .ok ((precheckCount xs.length (List.insertionSort (fun a b : Int => a ≤ b) indexes) : Nat) : Int)
          { tx with
            log := tx.log ++ [mkRecord bucket key
              (MarshalInts (List.insertionSort (fun a b : Int => a ≤ b) indexes))
              CmdFlag.DataLRemByIndex tx.now]
            nputs := tx.nputs + 1 }) := by
  have hcl : tx.checkTxIsClosed = none := by simp [Tx.checkTxIsClosed, hopen]
  refine ⟨List.sorted_insertionSort _ _, List.perm_insertionSort _ _, ?_, ?_, ?_⟩
  · intro e hpcerr
    simp only [Tx.LRemByIndex, hcl, hb, checkExpire_not_expired hb hne, hpcerr]
  · intro xs hx hz
    have hpc : l.LRemByIndexPreCheck key (List.insertionSort (fun a b : Int => a ≤ b) indexes)
        = .ok ((precheckCount xs.length (List.insertionSort (fun a b : Int => a ≤ b) indexes) : Nat) : Int) := by
      unfold ListStruct.LRemByIndexPreCheck
      rw [hx]
    simp only [Tx.LRemByIndex, hcl, hb, checkExpire_not_expired hb hne, hpc]
    simp [hz]
  · intro xs hx hz
    have hpc : l.LRemByIndexPreCheck key (List.insertionSort (fun a b : Int => a ≤ b) indexes)
        = .ok ((precheckCount xs.length (List.insertionSort (fun a b : Int => a ≤ b) indexes) : Nat) : Int) := by
      unfold ListStruct.LRemByIndexPreCheck
      rw [hx]
    simp only [Tx.LRemByIndex, hcl, hb, checkExpire_not_expired hb hne, hpc]
    rw [if_neg (by simpa using hz)]
    simp [Tx.push, Tx.put, hput, mkRecord]

/-- C4 witness: on the concrete three-element list, indices [2, 0] sort to
[0, 2], precheck 2, and the call appends the marshaled record and returns 2;
on the absent key "nope" the precheck errors with KeyNotFound and the call
returns that error with the transaction unchanged. -/
theorem c4_lrembyindex_witness :
    (precheckCount 3 (List.insertionSort (fun a b : Int => a ≤ b) [2, 0]) ≠ 0 ∧
      Tx.LRemByIndex txLive "b" "k" [2, 0] =
        .ok ((precheckCount 3 (List.insertionSort (fun a b : Int => a ≤ b) [2, 0]) : Nat) : Int)
          { txLive with
            log := txLive.log ++ [mkRecord "b" "k"
              (MarshalInts (List.insertionSort (fun a b : Int => a ≤ b) [2, 0]))
              CmdFlag.DataLRemByIndex txLive.now]
            nputs := txLive.nputs + 1 }) ∧
    (liveStruct.LRemByIndexPreCheck "nope" (List.insertionSort (fun a b : Int => a ≤ b) [0]) =
        .error GoErr.ErrKeyNotFound ∧
      Tx.LRemByIndex txLive "b" "nope" [0] = .err GoErr.ErrKeyNotFound txLive) :=
  ⟨⟨by decide,
    (c4_lrembyindex txLive "b" "k" [2, 0] liveStruct rfl (by decide)
      (by decide) rfl).2.2.2.2 ["x", "y", "x"] (by decide) (by decide)⟩,
   ⟨rfl,
    (c4_lrembyindex txLive "b" "nope" [0] liveStruct rfl (by decide)
      (by decide) rfl).2.2.1 GoErr.ErrKeyNotFound rfl⟩⟩

/-- C5: LTrim fails with KeyNotFound when the key is absent; it validates
start/end by invoking the LRange resolution path purely as a non-mutating
precondition check, failing with the range error and no record appended when
the range is invalid; on success it appends exactly one TrimRange record with
composite key "<key>|<start>" and value "<end>". -/
theorem c5_ltrim (tx : Tx) (bucket key : String) (start stop : Int) (l : ListStruct)
    (hopen : tx.closed = false) (hb : tx.getList bucket = some l)
    (hne : (l.IsExpire key tx.now).1 = false) (hput : tx.putErr tx.nputs = false) :
    (alookup l.Items key = none →
      tx.LTrim bucket key start stop = .err GoErr.ErrKeyNotFound tx) ∧
    (∀ xs e, alookup l.Items key = some xs → l.LRange key start stop = .error e →
      tx.LTrim bucket key start stop = .err e tx) ∧
    (∀ xs ys, alookup l.Items key = some xs → l.LRange key start stop = .ok ys →
      tx.LTrim bucket key start stop = .ok ()
        { tx with
          log := tx.log ++ [mkRecord bucket (key ++ SeparatorForListKey ++ IntToStr start)
            (IntToStr stop) CmdFlag.DataLTrimFlag tx.now]
          nputs := tx.nputs + 1 }) := by
  have hcl : tx.checkTxIsClosed = none := by simp [Tx.checkTxIsClosed, hopen]
  refine ⟨?_, ?_, ?_⟩
  · intro habs
    simp only [Tx.LTrim, hcl, hb, checkExpire_not_expired hb hne]
    simp [habs]
  · intro xs e hx hrange
    have hlr : tx.LRange bucket key start stop = .err e tx := by
      simp [Tx.LRange, hcl, hb, checkExpire_not_expired hb hne, hrange]
    simp only [Tx.LTrim, hcl, hb, checkExpire_not_expired hb hne, hlr]
    simp [hx]
  · intro xs ys hx hrange
    have hlr : tx.LRange bucket key start stop = .ok ys tx := by
      simp [Tx.LRange, hcl, hb, checkExpire_not_expired hb hne, hrange]
    simp only [Tx.LTrim, hcl, hb, checkExpire_not_expired hb hne, hlr]
    simp [hx, Tx.push, Tx.put, hput, mkRecord]

/-- C5 witness: trimming the concrete three-element list to range [0, 1]
appends the TrimRange record under composite key "k|0" with value "1". -/
theorem c5_ltrim_witness :
    alookup liveStruct.Items "k" = some ["x", "y", "x"] ∧
      liveStruct.LRange "k" 0 1 = .ok ["x", "y"] ∧
      Tx.LTrim txLive "b" "k" 0 1 = .ok ()
        { txLive with
          log := txLive.log ++ [mkRecord "b" ("k" ++ SeparatorForListKey ++ IntToStr 0)
            (IntToStr 1) CmdFlag.DataLTrimFlag txLive.now]
          nputs := txLive.nputs + 1 } :=
  ⟨by decide, rfl,
    (c5_ltrim txLive "b" "k" 0 1 liveStruct rfl (by decide) (by decide) rfl).2.2
      ["x", "y", "x"] ["x", "y"] (by decide) rfl⟩

/-- C6: RPush/LPush with n values emit exactly one command record per value,
in input order, and are not atomic across values: if appending value i fails,
the call returns that error and the records for the values before i remain
appended. -/
theorem c6_push_per_value (tx : Tx) (bucket key : String) (values : List String)
    (l : ListStruct) (hopen : tx.closed = false) (hb : tx.getList bucket = some l)
    (hne : (l.IsExpire key tx.now).1 = false) (hsep : containsSeparator key = false) :
    ((∀ j, j < values.length → tx.putErr (tx.nputs + j) = false) →
      tx.RPush bucket key values = .ok () { tx with
        log := tx.log ++ values.map (fun v => mkRecord bucket key v CmdFlag.DataRPushFlag tx.now)
        nputs := tx.nputs + values.length } ∧
      tx.LPush bucket key values = .ok () { tx with
        log := tx.log ++ values.map (fun v => mkRecord bucket key v CmdFlag.DataLPushFlag tx.now)
        nputs := tx.nputs + values.length }) ∧
    (∀ i, i < values.length →
      (∀ j, j < i → tx.putErr (tx.nputs + j) = false) →
      tx.putErr (tx.nputs + i) = true →
      tx.RPush bucket key values = .err GoErr.putFail { tx with
        log := tx.log ++
          (values.take i).map (fun v => mkRecord bucket key v CmdFlag.DataRPushFlag tx.now)
        nputs := tx.nputs + i + 1 } ∧
      tx.LPush bucket key values = .err GoErr.putFail { tx with
        log := tx.log ++
          (values.take i).map (fun v => mkRecord bucket key v CmdFlag.DataLPushFlag tx.now)
        nputs := tx.nputs + i + 1 }) := by
  have hcl : tx.checkTxIsClosed = none := by simp [Tx.checkTxIsClosed, hopen]
  have hR : tx.RPush bucket key values = tx.push bucket key CmdFlag.DataRPushFlag values := by
    simp [Tx.RPush, hcl, checkExpire_not_expired hb hne, hsep]
  have hL : tx.LPush bucket key values = tx.push bucket key CmdFlag.DataLPushFlag values := by
    simp [Tx.LPush, hcl, checkExpire_not_expired hb hne, hsep]
  constructor
  · intro hok
    rw [hR, hL]
    exact ⟨push_ok_all bucket key CmdFlag.DataRPushFlag values tx hok,
      push_ok_all bucket key CmdFlag.DataLPushFlag values tx hok⟩
  · intro i hi hpre hfail
    rw [hR, hL]
    exact ⟨push_fail_at bucket key CmdFlag.DataRPushFlag values tx i hi hpre hfail,
      push_fail_at bucket key CmdFlag.DataLPushFlag values tx i hi hpre hfail⟩

/-- C6 witness: pushing ["a", "b", "c"] with the second append failing leaves
exactly the record for "a" appended and returns the append error. -/
theorem c6_push_per_value_witness :
    (1 : Nat) < (["a", "b", "c"] : List String).length ∧
      txFailAt1.putErr (txFailAt1.nputs + 1) = true ∧
      Tx.RPush txFailAt1 "b" "k" ["a", "b", "c"] = .err GoErr.putFail { txFailAt1 with
        log := txFailAt1.log ++ ((["a", "b", "c"] : List String).take 1).map
          (fun v => mkRecord "b" "k" v CmdFlag.DataRPushFlag txFailAt1.now)
        nputs := txFailAt1.nputs + 1 + 1 } :=
  ⟨by decide, rfl,
    ((c6_push_per_value txFailAt1 "b" "k" ["a", "b", "c"] liveStruct rfl (by decide)
        (by decide) (by decide)).2 1 (by decide)
      (by
        intro j hj
        have hj0 : j = 0 := by omega
        subst hj0
        rfl)
      rfl).1⟩

/-- C8: ExpireList updates the in-memory TTL table and timestamp for the key
immediately — a subsequent GetListTTL in the same process returns the new ttl
— and independently appends exactly one Expire record carrying the ttl value;
if that durable append fails, the error is returned but the in-memory TTL
update remains in place. -/
theorem c8_expirelist (tx : Tx) (bucket key : String) (ttl : Nat) (l : ListStruct)
    (hopen : tx.closed = false) (hb : tx.getList bucket = some l) :
    (tx.putErr tx.nputs = false →
      ∃ tx2, tx.ExpireList bucket key ttl = .ok () tx2 ∧
        tx2.log = tx.log ++ [mkRecord bucket key (IntToStr ((ttl : Nat) : Int))
          CmdFlag.DataExpireListFlag tx.now] ∧
        tx2.getList bucket = some { l with TTL := aset l.TTL key ttl, TimeStamp := aset l.TimeStamp key tx.now } ∧
        tx2.GetListTTL bucket key = .ok ttl tx2) ∧
    (tx.putErr tx.nputs = true →
      ∃ tx2, tx.ExpireList bucket key ttl = .err GoErr.putFail tx2 ∧
        tx2.log = tx.log ∧
        tx2.getList bucket = some { l with TTL := aset l.TTL key ttl, TimeStamp := aset l.TimeStamp key tx.now } ∧
        tx2.GetListTTL bucket key = .ok ttl tx2) := by
  have hcl : tx.checkTxIsClosed = none := by simp [Tx.checkTxIsClosed, hopen]
  constructor
  · intro hput
    refine ⟨{ tx with
        index := aset tx.index bucket { l with TTL := aset l.TTL key ttl, TimeStamp := aset l.TimeStamp key tx.now }
        log := tx.log ++ [mkRecord bucket key (IntToStr ((ttl : Nat) : Int)) CmdFlag.DataExpireListFlag tx.now]
        nputs := tx.nputs + 1 }, ?_, rfl, ?_, ?_⟩
    · simp only [Tx.ExpireList, hcl, hb]
      simp [Tx.push, Tx.put, Tx.setList, hput, mkRecord]
    · simp [Tx.getList, alookup_aset_self]
    · simp [Tx.GetListTTL, Tx.checkTxIsClosed, hopen, Tx.getList, alookup_aset_self,
        ListStruct.getTTL]
  · intro hput
    refine ⟨{ tx with
        index := aset tx.index bucket { l with TTL := aset l.TTL key ttl, TimeStamp := aset l.TimeStamp key tx.now }
        nputs := tx.nputs + 1 }, ?_, rfl, ?_, ?_⟩
    · simp only [Tx.ExpireList, hcl, hb]
      simp [Tx.push, Tx.put, Tx.setList, hput]
    · simp [Tx.getList, alookup_aset_self]
    · simp [Tx.GetListTTL, Tx.checkTxIsClosed, hopen, Tx.getList, alookup_aset_self,
        ListStruct.getTTL]

/-- C8 witness: setting ttl 5 on the concrete live transaction appends one
Expire record and GetListTTL immediately returns 5; on the all-appends-fail
transaction the error is returned yet the in-memory TTL already reads 5. -/
theorem c8_expirelist_witness :
    (txLive.putErr txLive.nputs = false ∧
      ∃ tx2, Tx.ExpireList txLive "b" "k" 5 = .ok () tx2 ∧
        tx2.log = txLive.log ++ [mkRecord "b" "k" (IntToStr ((5 : Nat) : Int))
          CmdFlag.DataExpireListFlag txLive.now] ∧
        tx2.getList "b" = some { liveStruct with TTL := aset liveStruct.TTL "k" 5, TimeStamp := aset liveStruct.TimeStamp "k" txLive.now } ∧
        tx2.GetListTTL "b" "k" = .ok 5 tx2) ∧
    (txFailAll.putErr txFailAll.nputs = true ∧
      ∃ tx2, Tx.ExpireList txFailAll "b" "k" 5 = .err GoErr.putFail tx2 ∧
        tx2.log = txFailAll.log ∧
        tx2.getList "b" = some { liveStruct with TTL := aset liveStruct.TTL "k" 5, TimeStamp := aset liveStruct.TimeStamp "k" txFailAll.now } ∧
        tx2.GetListTTL "b" "k" = .ok 5 tx2) :=
  ⟨⟨rfl, (c8_expirelist txLive "b" "k" 5 liveStruct rfl (by decide)).1 rfl⟩,
    ⟨rfl, (c8_expirelist txFailAll "b" "k" 5 liveStruct rfl (by decide)).2 rfl⟩⟩

theorem setList_now (tx : Tx) (bucket : String) (l : ListStruct) :
    (tx.setList bucket l).now = tx.now := rfl

theorem setList_log (tx : Tx) (bucket : String) (l : ListStruct) :
    (tx.setList bucket l).log = tx.log := rfl

theorem setList_setList (tx : Tx) (bucket : String) (l1 l2 : ListStruct) :
    (tx.setList bucket l1).setList bucket l2 = tx.setList bucket l2 := by
  simp [Tx.setList, aset_aset]

/-- Modelled from the spec: the KeyEnumerator recursion of §4.7 written over
the bare structure, amended with the gate's synchronous eviction (§5): an
expired key is skipped (and evicted) without being matched; a remaining key
is pattern-matched and passed to the callback, stopping early with the match
error, or with a normal return when the callback signals termination; the
result is the final error (none for a normal return) and the final
structure. -/
def lkeysSpec (now : Nat) (pattern : String) (f : String → Bool) :
    ListStruct → List String → Option GoErr × ListStruct
  | l, [] => (none, l)
  | l, k :: rest =>
    if (l.IsExpire k now).1 then lkeysSpec now pattern f (l.evict k) rest
    else
      if (MatchForRange pattern k f).1 || (MatchForRange pattern k f).2.isSome then
        ((MatchForRange pattern k f).2, l)
      else lkeysSpec now pattern f l rest

theorem lkeysAux_spec :
    ∀ (keys : List String) (tx : Tx) (bucket pattern : String) (f : String → Bool)
      (l : ListStruct), tx.getList bucket = some l →
      Tx.lkeysAux tx bucket pattern f keys =
        (match (lkeysSpec tx.now pattern f l keys).1 with
          | some e => .err e (tx.setList bucket (lkeysSpec tx.now pattern f l keys).2)
          | none => .ok () (tx.setList bucket (lkeysSpec tx.now pattern f l keys).2)) := by
  intro keys
  induction keys with
  | nil =>
    intro tx bucket pattern f l hb
    simp [Tx.lkeysAux, lkeysSpec, setList_getList_id hb]
  | cons k rest ih =>
    intro tx bucket pattern f l hb
    cases hexp : (l.IsExpire k tx.now).1 with
    | true =>
      have hce := checkExpire_expired hb hexp
      have step := ih (tx.setList bucket (l.evict k)) bucket pattern f (l.evict k)
        (getList_setList_self tx bucket (l.evict k))
      simp only [Tx.lkeysAux, hce]
      rw [step]
      simp only [lkeysSpec, hexp, if_true, setList_now, setList_setList]
    | false =>
      have hce := checkExpire_not_expired hb hexp
      simp only [Tx.lkeysAux, hce]
      simp only [lkeysSpec, hexp, Bool.false_eq_true, if_false]
      cases hm : (MatchForRange pattern k f).1 || (MatchForRange pattern k f).2.isSome with
      | false =>
        rw [if_neg (by simp [hm]), if_neg (by simp [hm])]
        exact ih tx bucket pattern f l hb
      | true =>
        rw [if_pos (by simp [hm]), if_pos (by simp [hm])]
        cases hp2 : (MatchForRange pattern k f).2 with
        | none => simp [setList_getList_id hb]
        | some e => simp [setList_getList_id hb]

/-- C9 (amended): during LKeys enumeration every key the gate reports expired
is skipped silently — it is never passed to the matcher or callback and no
record is appended for it — but the gate's own check synchronously evicts the
expired key from the in-memory structure; non-expired keys that match the
pattern are passed to the callback, and enumeration stops early when the
callback signals termination or the match function errors.  LKeys equals the
spec-level enumeration and never changes the command log. -/
theorem c9_lkeys (tx : Tx) (bucket pattern : String) (f : String → Bool) (l : ListStruct)
    (hopen : tx.closed = false) (hb : tx.getList bucket = some l) :
    tx.LKeys bucket pattern f =
      (match (lkeysSpec tx.now pattern f l (l.Items.map Prod.fst)).1 with
        | some e =>
          .err e (tx.setList bucket (lkeysSpec tx.now pattern f l (l.Items.map Prod.fst)).2)
        | none =>
          .ok () (tx.setList bucket (lkeysSpec tx.now pattern f l (l.Items.map Prod.fst)).2)) ∧
    (tx.LKeys bucket pattern f).log = some tx.log := by
  have hcl : tx.checkTxIsClosed = none := by simp [Tx.checkTxIsClosed, hopen]
  have h1 : tx.LKeys bucket pattern f =
      (match (lkeysSpec tx.now pattern f l (l.Items.map Prod.fst)).1 with
        | some e =>
          .err e (tx.setList bucket (lkeysSpec tx.now pattern f l (l.Items.map Prod.fst)).2)
        | none =>
          .ok () (tx.setList bucket (lkeysSpec tx.now pattern f l (l.Items.map Prod.fst)).2)) := by
    simp only [Tx.LKeys, hcl, hb]
    exact lkeysAux_spec (l.Items.map Prod.fst) tx bucket pattern f l hb
  refine ⟨h1, ?_⟩
  rw [h1]
  cases (lkeysSpec tx.now pattern f l (l.Items.map Prod.fst)).1 <;>
    simp [Res.log, setList_log]

/-- C9 witness: enumerating the concrete live bucket with pattern "*" visits
the single key and returns normally, matching the spec-level enumeration. -/
theorem c9_lkeys_witness :
    txLive.closed = false ∧ txLive.getList "b" = some liveStruct ∧
      Tx.LKeys txLive "b" "*" (fun _ => true) =
        (match (lkeysSpec txLive.now "*" (fun _ => true) liveStruct
            (liveStruct.Items.map Prod.fst)).1 with
          | some e => .err e (txLive.setList "b" (lkeysSpec txLive.now "*" (fun _ => true)
              liveStruct (liveStruct.Items.map Prod.fst)).2)
          | none => .ok () (txLive.setList "b" (lkeysSpec txLive.now "*" (fun _ => true)
              liveStruct (liveStruct.Items.map Prod.fst)).2)) :=
  ⟨rfl, by decide,
    (c9_lkeys txLive "b" "*" (fun _ => true) liveStruct rfl (by decide)).1⟩

/-- C9 counterexample: the claim says the skip of an expired key performs no
eviction and mutates nothing.  On the code, enumerating a bucket whose only
key is expired returns normally but the registry has changed: the gate
evicted the key. -/
theorem c9_counterexample :
    (Tx.LKeys txExpired "b" "*" (fun _ => true)).errOf = none ∧
      (Tx.LKeys txExpired "b" "*" (fun _ => true)).idx ≠ some txExpired.index := by
  decide
